import Mathlib

/-!
Verification of the segment-selection core of the 24HourClock repository
(`src/Clock.jsx`).  The geometry (`getSegmentIndex`, `polarToCartesian`),
the segment map (a JS object keyed by segment indices), the persistence
layer (`localStorage` slot plus `JSON.parse`/`JSON.stringify`) and the three
mouse handlers are embedded shallowly.  JavaScript numbers are modelled as
real numbers: `Math.hypot (dx, dy)` is `Complex.abs ⟨dx, dy⟩` and
`Math.atan2 (dy, dx)` is `Complex.arg ⟨dx, dy⟩`, which have the same
mathematical definitions (principal value in `(-π, π]`, `atan2 0 0 = 0`).
-/

/-- Propositions occurring in the source's `if` conditions (real-number
comparisons) are decided classically, at low priority so that computable
instances are still preferred. -/
noncomputable instance (priority := 5) (p : Prop) : Decidable p :=
  Classical.propDecidable p

namespace Clock24

/-! ## Geometry: constants and `getSegmentIndex` (Clock.jsx lines 20-22, 70-90) -/

/-- `const size = 700` (Clock.jsx line 20). -/
noncomputable def size : ℝ := 700

/-- `const center = size / 2` (Clock.jsx line 21). -/
noncomputable def center : ℝ := size / 2

/-- `const radius = center - 10` (Clock.jsx line 22). -/
noncomputable def radius : ℝ := center - 10

/-- JavaScript truncation toward zero, used by the `%` remainder operator. -/
noncomputable def jsTrunc (x : ℝ) : ℤ := if 0 ≤ x then ⌊x⌋ else ⌈x⌉

/-- The JavaScript remainder operator `a % n` on finite numbers:
`a - n * trunc (a / n)` (the result carries the sign of the dividend). -/
noncomputable def jsMod (a n : ℝ) : ℝ := a - n * jsTrunc (a / n)

/-- `Math.hypot dx dy = √(dx² + dy²)`, the Euclidean length. -/
noncomputable def jsHypot (dx dy : ℝ) : ℝ := Complex.abs ⟨dx, dy⟩

/-- `Math.atan2 dy dx`: the angle of the vector `(dx, dy)` in `(-π, π]`
measured counter-clockwise from the positive x axis, with `atan2 0 0 = 0`. -/
noncomputable def jsAtan2 (dy dx : ℝ) : ℝ := Complex.arg ⟨dx, dy⟩

/-- `getSegmentIndex` (Clock.jsx lines 70-90):

```
const x = clientX - rect.left;
const y = clientY - rect.top;
const dx = x - center;
const dy = y - center;
if (Math.hypot(dx, dy) > radius) return null;
let angle = Math.atan2(dy, dx) * (180 / Math.PI);
angle = (angle + 90 + 360) % 360;
return Math.floor(angle / 15);
```
-/
noncomputable def getSegmentIndex (clientX clientY rectLeft rectTop : ℝ) : Option ℤ :=
  let x := clientX - rectLeft
  let y := clientY - rectTop
  let dx := x - center
  let dy := y - center
  if jsHypot dx dy > radius then none
  else some ⌊jsMod (jsAtan2 dy dx * (180 / Real.pi) + 90 + 360) 360 / 15⌋

/-- `polarToCartesian` (Clock.jsx lines 184-189); at every call site the code
either passes `r` explicitly or uses the default `r = radius`, which we pass
explicitly:

```
const rad = (angleDeg * Math.PI) / 180;
return {x: center + r * Math.cos(rad), y: center + r * Math.sin(rad)};
```
-/
noncomputable def polarToCartesian (angleDeg r : ℝ) : ℝ × ℝ :=
  let rad := angleDeg * Real.pi / 180
  (center + r * Real.cos rad, center + r * Real.sin rad)

/-- The spec's normalized top-relative angle: `(d + 90 + 360)` reduced by the
mathematical modulus into `[0, 360)`.  Stated from the spec's words ("add 90°,
add 360°, then take the result modulo 360°") to compare with the code's
JavaScript `%` operator. -/
noncomputable def specNormalize (d : ℝ) : ℝ :=
  (d + 90 + 360) - 360 * ⌊(d + 90 + 360) / 360⌋

/-! ## The segment map: a JS object keyed by segment indices (stringified
numbers, modelled as `ℤ`), with values the color strings.  Entries are kept
in key-insertion order; setting an existing key keeps its position, exactly
like property assignment on a JS object (all keys here are integer-like, so
JS would enumerate them numerically; only the serialization of the empty map
is relied upon below). -/

/-- The `segmentColors` object: segment index ↦ color string. -/
def SegmentMap : Type := List (ℤ × String)

instance : DecidableEq SegmentMap := by unfold SegmentMap; infer_instance

/-- Property read `m[k]`: `some color` if present, else `none` (JS
`undefined`). -/
def objGet (m : SegmentMap) (k : ℤ) : Option String :=
  match m with
  | [] => none
  | (k', v) :: rest => if k' = k then some v else objGet rest k

/-- Property write: the content of `{...prev, [k]: v}` (and of `next[k] = v`):
overwrite `k` in place if present, else append it. -/
def objSet (m : SegmentMap) (k : ℤ) (v : String) : SegmentMap :=
  match m with
  | [] => [(k, v)]
  | (k', v') :: rest => if k' = k then (k', v) :: rest else (k', v') :: objSet rest k v

/-- Property removal: the content of `delete next[k]`. -/
def objDelete (m : SegmentMap) (k : ℤ) : SegmentMap :=
  match m with
  | [] => []
  | (k', v') :: rest => if k' = k then objDelete rest k else (k', v') :: objDelete rest k

/-! ## Persistence: `JSON.stringify`, `JSON.parse` and the startup load
(Clock.jsx lines 29-32 and 46-48). -/

/-- The character `{` (written by code point to keep braces out of strings). -/
def lbrace : Char := Char.ofNat 123

/-- The character `}`. -/
def rbrace : Char := Char.ofNat 125

/-- `JSON.stringify` on the segment map: a flat object whose keys are the
string-encoded indices and whose values are the color strings. -/
def stringify (m : SegmentMap) : String :=
  String.singleton lbrace ++
    String.intercalate ","
      (m.map (fun p => "\"" ++ toString p.1 ++ "\":\"" ++ p.2 ++ "\"")) ++
    String.singleton rbrace

/-- Skip JSON whitespace. -/
def skipWs : List Char → List Char
  | [] => []
  | c :: rest =>
    if c = ' ' ∨ c = '\t' ∨ c = '\n' ∨ c = '\r' then skipWs rest else c :: rest

/-- A JavaScript value as produced by `JSON.parse`.  Strings are represented
by their UTF-16 code-unit sequences, exactly as JavaScript stores them —
this also represents the lone surrogates that escapes such as `\uD800`
produce.  A number is kept as its validated numeric lexeme, standing in for
the double JavaScript would convert it to; no claim depends on numeric
identity.  Object fields are in first-occurrence order with last-wins
values, matching repeated property definition on a JS object. -/
inductive JsValue where
  | nullV : JsValue
  | boolV : Bool → JsValue
  | numV : String → JsValue
  | strV : List ℕ → JsValue
  | arrV : List JsValue → JsValue
  | objV : List (List ℕ × JsValue) → JsValue

/-- The value of a hexadecimal digit. -/
def hexVal (c : Char) : Option ℕ :=
  if 48 ≤ c.toNat ∧ c.toNat ≤ 57 then some (c.toNat - 48)
  else if 65 ≤ c.toNat ∧ c.toNat ≤ 70 then some (c.toNat - 55)
  else if 97 ≤ c.toNat ∧ c.toNat ≤ 102 then some (c.toNat - 87)
  else none

/-- The UTF-16 encoding of one unicode scalar. -/
def encodeUnits (c : Char) : List ℕ :=
  if c.toNat < 65536 then [c.toNat]
  else [55296 + (c.toNat - 65536) / 1024, 56320 + (c.toNat - 65536) % 1024]

/-- The body of a JSON string literal after the opening quote: the decoded
UTF-16 code units and the remaining input.  Every escape form of RFC 8259
is decoded (`\uXXXX` to its code unit, so surrogate escapes behave exactly
as in JavaScript); an unescaped control character is a syntax error, as in
`JSON.parse`. -/
def parseUnits : List Char → Option (List ℕ × List Char)
  | [] => none
  | c :: rest =>
    if c = '"' then some ([], rest)
    else if c = '\\' then
      match rest with
      | [] => none
      | e :: rest2 =>
        if e = '"' ∨ e = '\\' ∨ e = '/' then
          (parseUnits rest2).map (fun p => (e.toNat :: p.1, p.2))
        else if e = 'b' then (parseUnits rest2).map (fun p => (8 :: p.1, p.2))
        else if e = 'f' then (parseUnits rest2).map (fun p => (12 :: p.1, p.2))
        else if e = 'n' then (parseUnits rest2).map (fun p => (10 :: p.1, p.2))
        else if e = 'r' then (parseUnits rest2).map (fun p => (13 :: p.1, p.2))
        else if e = 't' then (parseUnits rest2).map (fun p => (9 :: p.1, p.2))
        else if e = 'u' then
          match rest2 with
          | h1 :: h2 :: h3 :: h4 :: rest3 =>
            match hexVal h1, hexVal h2, hexVal h3, hexVal h4 with
            | some a, some b, some c2, some d =>
              (parseUnits rest3).map
                (fun p => ((((a * 16 + b) * 16 + c2) * 16 + d) :: p.1, p.2))
            | _, _, _, _ => none
          | _ => none
        else none
    else if c.toNat < 32 then none
    else (parseUnits rest).map (fun p => (encodeUnits c ++ p.1, p.2))

/-- Decimal digit test. -/
def isDigit (c : Char) : Bool := 48 ≤ c.toNat ∧ c.toNat ≤ 57

/-- Split off a maximal run of decimal digits. -/
def takeDigits : List Char → List Char × List Char
  | [] => ([], [])
  | c :: rest =>
    if isDigit c then
      let p := takeDigits rest
      (c :: p.1, p.2)
    else ([], c :: rest)

/-- The fraction-and-exponent tail of a JSON number. -/
def parseNumTail (cs : List Char) : Option (List Char × List Char) :=
  let frac : Option (List Char × List Char) :=
    match cs with
    | '.' :: r =>
      match takeDigits r with
      | ([], _) => none
      | (ds, r2) => some ('.' :: ds, r2)
    | _ => some ([], cs)
  match frac with
  | none => none
  | some (fr, cs2) =>
    match cs2 with
    | c3 :: r =>
      if c3 = 'e' ∨ c3 = 'E' then
        let p :=
          match r with
          | '+' :: rr => (['+'], rr)
          | '-' :: rr => (['-'], rr)
          | _ => (([] : List Char), r)
        match takeDigits p.2 with
        | ([], _) => none
        | (ds, r3) => some (fr ++ c3 :: p.1 ++ ds, r3)
      else some (fr, cs2)
    | [] => some (fr, cs2)

/-- A JSON number lexeme:
`-?(0|[1-9][0-9]*)(.[0-9]+)?([eE][+-]?[0-9]+)?`. -/
def parseNum (cs : List Char) : Option (List Char × List Char) :=
  let p :=
    match cs with
    | '-' :: r => ((['-'] : List Char), r)
    | _ => (([] : List Char), cs)
  match p.2 with
  | [] => none
  | c :: r1 =>
    if c = '0' then
      (parseNumTail r1).map (fun q => (p.1 ++ '0' :: q.1, q.2))
    else if isDigit c then
      match takeDigits r1 with
      | (ds, r2) => (parseNumTail r2).map (fun q => (p.1 ++ c :: ds ++ q.1, q.2))
    else none

/-- Overwrite-in-place-or-append: the semantics of repeated property
definition on a JS object (`JSON.parse` keeps a duplicate key at its first
position but with its last value). -/
def objUpd (fields : List (List ℕ × JsValue)) (k : List ℕ) (v : JsValue) :
    List (List ℕ × JsValue) :=
  match fields with
  | [] => [(k, v)]
  | (k1, v1) :: rest =>
    if k1 = k then (k1, v) :: rest else (k1, v1) :: objUpd rest k v

mutual

/-- One JSON value, starting at a non-whitespace character.  The fuel only
bounds recursion depth; every recursive call follows the consumption of at
least one input character, so `length + 1` fuel never runs out. -/
def parseVal : ℕ → List Char → Option (JsValue × List Char)
  | 0, _ => none
  | _ + 1, [] => none
  | fuel + 1, c :: rest =>
    if c = '"' then (parseUnits rest).map (fun p => (JsValue.strV p.1, p.2))
    else if c = 't' then
      match rest with
      | 'r' :: 'u' :: 'e' :: r => some (JsValue.boolV true, r)
      | _ => none
    else if c = 'f' then
      match rest with
      | 'a' :: 'l' :: 's' :: 'e' :: r => some (JsValue.boolV false, r)
      | _ => none
    else if c = 'n' then
      match rest with
      | 'u' :: 'l' :: 'l' :: r => some (JsValue.nullV, r)
      | _ => none
    else if c = lbrace then
      match skipWs rest with
      | c2 :: r2 =>
        if c2 = rbrace then some (JsValue.objV [], r2)
        else (parseMembers fuel [] (c2 :: r2)).map (fun p => (JsValue.objV p.1, p.2))
      | [] => none
    else if c = '[' then
      match skipWs rest with
      | c2 :: r2 =>
        if c2 = ']' then some (JsValue.arrV [], r2)
        else (parseElems fuel (c2 :: r2)).map (fun p => (JsValue.arrV p.1, p.2))
      | [] => none
    else
      (parseNum (c :: rest)).map (fun p => (JsValue.numV (String.mk p.1), p.2))

/-- The members of a non-empty JSON object, starting at the opening quote of
a key; consumes the closing brace.  `acc` holds the fields parsed so far in
first-occurrence order; a repeated key overwrites its value in place. -/
def parseMembers (fuel : ℕ) (acc : List (List ℕ × JsValue)) :
    List Char → Option (List (List ℕ × JsValue) × List Char)
  | [] => none
  | c :: rest =>
    match fuel with
    | 0 => none
    | fuel + 1 =>
      if c = '"' then
        match parseUnits rest with
        | none => none
        | some (k, r1) =>
          match skipWs r1 with
          | ':' :: r2 =>
            match parseVal fuel (skipWs r2) with
            | none => none
            | some (v, r3) =>
              match skipWs r3 with
              | c4 :: r4 =>
                if c4 = ',' then parseMembers fuel (objUpd acc k v) (skipWs r4)
                else if c4 = rbrace then some (objUpd acc k v, r4)
                else none
              | [] => none
          | _ => none
      else none

/-- The elements of a non-empty JSON array, starting at the first element;
consumes the closing bracket. -/
def parseElems (fuel : ℕ) (cs : List Char) : Option (List JsValue × List Char) :=
  match fuel with
  | 0 => none
  | fuel + 1 =>
    match parseVal fuel cs with
    | none => none
    | some (v, r1) =>
      match skipWs r1 with
      | c2 :: r2 =>
        if c2 = ',' then
          (parseElems fuel (skipWs r2)).map (fun p => (v :: p.1, p.2))
        else if c2 = ']' then some ([v], r2)
        else none
      | [] => none

end

/-- `JSON.parse`: one JSON document surrounded by optional whitespace;
`none` where `JSON.parse` throws a `SyntaxError`. -/
def jsParse (s : String) : Option JsValue :=
  match parseVal (s.data.length + 1) (skipWs s.data) with
  | some (v, rest) => if skipWs rest = [] then some v else none
  | none => none

/-- The startup load (Clock.jsx lines 29-32):

```
const saved = localStorage.getItem(LOCAL_STORAGE_KEY);
return saved ? JSON.parse(saved) : {};
```

`localStorage.getItem` returns `null` (here `none`) or a string; the only
falsy string is `""`.  A parsed value is returned unchanged, whatever its
shape (it need not be an object).  There is no `try`/`catch`: when
`JSON.parse` throws, the exception propagates out of the `useState`
initializer, modelled as `Except.error`. -/
def load (saved : Option String) : Except String JsValue :=
  match saved with
  | none => Except.ok (JsValue.objV [])
  | some s =>
    if s = "" then Except.ok (JsValue.objV [])
    else
      match jsParse s with
      | some v => Except.ok v
      | none => Except.error "SyntaxError: Unexpected token in JSON"

/-! ## The component state and the mouse handlers (Clock.jsx lines 29-169,
277-280).  `storage` is the `localStorage` slot.  The `useEffect` on
`[segmentColors]` (lines 46-48) re-writes the slot exactly when a handler
installed a *new* map object via `setSegmentColors`; an updater that returns
`prev` itself (the drag self-loop short-circuit, line 138) leaves the state
reference unchanged, so no re-render and no write happens.  Handlers below
therefore update `storage` precisely where they create a new map object. -/

structure ClockState where
  segmentColors : SegmentMap
  activeColor : String
  dragging : Bool
  dragStart : Option (ℝ × ℝ)
  dragged : Bool
  storage : Option String

/-- Recombine a UTF-16 code-unit sequence into a string of unicode scalars
(`none` on a lone surrogate, which Lean strings cannot hold). -/
def unitsToString : List ℕ → Option String
  | [] => some ""
  | u :: rest =>
    if 55296 ≤ u ∧ u ≤ 56319 then
      match rest with
      | u2 :: rest2 =>
        if 56320 ≤ u2 ∧ u2 ≤ 57343 then
          (unitsToString rest2).map (fun s =>
            String.mk (Char.ofNat (65536 + (u - 55296) * 1024 + (u2 - 56320)) :: s.data))
        else none
      | [] => none
    else if 56320 ≤ u ∧ u ≤ 57343 then none
    else (unitsToString rest).map (fun s => String.mk (Char.ofNat u :: s.data))

/-- Accumulate a decimal digit string into a natural number. -/
def natOfDigitsAux : List Char → ℕ → Option ℕ
  | [], acc => some acc
  | c :: rest, acc =>
    if 48 ≤ c.toNat ∧ c.toNat ≤ 57 then natOfDigitsAux rest (acc * 10 + (c.toNat - 48))
    else none

/-- A non-empty decimal digit string as a natural number. -/
def natOfDigits : List Char → Option ℕ
  | [] => none
  | c :: rest => natOfDigitsAux (c :: rest) 0

/-- Decode a decimal string key (the form `toString` writes, optionally
negative) back to an integer segment index. -/
def keyToInt (s : String) : Option ℤ :=
  match s.data with
  | '-' :: rest => (natOfDigits rest).map (fun n => -(n : ℤ))
  | cs => (natOfDigits cs).map (fun n => (n : ℤ))

/-- Decode the fields of a parsed object into the model's segment map:
every key must be a decimal integer and every value a string. -/
def decodeFields : List (List ℕ × JsValue) → Option SegmentMap
  | [] => some []
  | (k, v) :: rest =>
    match unitsToString k with
    | none => none
    | some ks =>
      match keyToInt ks, v with
      | some n, JsValue.strV vs =>
        match unitsToString vs with
        | some vstr => (decodeFields rest).map (fun m => (n, vstr) :: m)
        | none => none
      | _, _ => none

/-- Bridge from the untyped loaded value to the state machine's
`segmentColors : SegmentMap`: succeeds exactly on integer-keyed
string-valued objects — the only shape this application ever persists,
since the slot is only written with `stringify` of a segment map. -/
def decodeSegMap : JsValue → Option SegmentMap
  | JsValue.objV fields => decodeFields fields
  | _ => none

/-- The state after mount: `segmentColors` from `load`, `activeColor`
`'blue'`, `dragging` `false`, `dragStartRef.current = null`,
`draggedRef.current = false`; the mount run of the persistence effect writes
the map back to the slot.  A malformed slot makes the initializer throw
(`Except.error`).  A slot that parses to anything other than an
integer-keyed string-valued object is a state the application itself never
persists; it lies outside the segment-map-typed state machine model and is
mapped to an error here. -/
def initClock (saved : Option String) : Except String ClockState :=
  (load saved).bind fun v =>
    match decodeSegMap v with
    | some m =>
      Except.ok
        { segmentColors := m
          activeColor := "blue"
          dragging := false
          dragStart := none
          dragged := false
          storage := some (stringify m) }
    | none => Except.error "loaded value outside the segment-map model"

/-- `handleMouseDown` (Clock.jsx lines 98-114): record the anchor, reset the
drag flag, start dragging, and assign the active color to the segment under
the pointer (always a fresh object, hence a persistence write). -/
noncomputable def handleMouseDown (rectLeft rectTop : ℝ) (e : ℝ × ℝ)
    (st : ClockState) : ClockState :=
  let st1 := { st with dragStart := some e, dragged := false, dragging := true }
  match getSegmentIndex e.1 e.2 rectLeft rectTop with
  | none => st1
  | some seg =>
    let m := objSet st1.segmentColors seg st1.activeColor
    { st1 with segmentColors := m, storage := some (stringify m) }

/-- `handleMouseMove` (Clock.jsx lines 121-143): ignore unless dragging; set
the drag flag once the pointer strays more than 5 units from the anchor;
paint the segment under the pointer unless it already holds the active color
(in which case the updater returns `prev` and nothing changes, not even the
persisted slot).  The code reads `dragStartRef.current` unconditionally; it
is non-null whenever `dragging` is true, so the `none` branch is
unreachable. -/
noncomputable def handleMouseMove (rectLeft rectTop : ℝ) (e : ℝ × ℝ)
    (st : ClockState) : ClockState :=
  if st.dragging = false then st
  else
    let st1 :=
      match st.dragStart with
      | none => st
      | some a =>
        if st.dragged = false ∧ jsHypot (e.1 - a.1) (e.2 - a.2) > 5 then
          { st with dragged := true }
        else st
    match getSegmentIndex e.1 e.2 rectLeft rectTop with
    | none => st1
    | some seg =>
      if objGet st1.segmentColors seg = some st1.activeColor then st1
      else
        let m := objSet st1.segmentColors seg st1.activeColor
        { st1 with segmentColors := m, storage := some (stringify m) }

/-- `handleMouseUp` (Clock.jsx lines 151-169): if the gesture never became a
drag, toggle the segment under the pointer (remove it if it holds the active
color, assign otherwise — always a fresh object, hence a write); then stop
dragging. -/
noncomputable def handleMouseUp (rectLeft rectTop : ℝ) (e : ℝ × ℝ)
    (st : ClockState) : ClockState :=
  let st1 :=
    if st.dragged = false then
      match getSegmentIndex e.1 e.2 rectLeft rectTop with
      | none => st
      | some seg =>
        let m :=
          if objGet st.segmentColors seg = some st.activeColor then
            objDelete st.segmentColors seg
          else objSet st.segmentColors seg st.activeColor
        { st with segmentColors := m, storage := some (stringify m) }
    else st
  { st1 with dragging := false }

/-- `clearClock` (Clock.jsx lines 277-280): empty the map and remove the
persisted entry.  The state change re-runs the persistence effect, which
immediately writes `JSON.stringify({})` back, so the slot ends up holding
the serialization of the empty map. -/
def clearClock (st : ClockState) : ClockState :=
  { st with segmentColors := [], storage := some (stringify ([] : SegmentMap)) }

/-- The click-toggle semantics of `handleMouseUp` as the spec states it:
resolve the segment; if `none`, do nothing; otherwise remove it if it holds
the active color and assign the active color otherwise. -/
def toggleAt (m : SegmentMap) (c : String) : Option ℤ → SegmentMap
  | none => m
  | some seg => if objGet m seg = some c then objDelete m seg else objSet m seg c

/-- A raw mouse event with client coordinates. -/
inductive MouseEvent where
  | down : ℝ → ℝ → MouseEvent
  | move : ℝ → ℝ → MouseEvent
  | up : ℝ → ℝ → MouseEvent

/-- Dispatch one event to its handler. -/
noncomputable def step (rectLeft rectTop : ℝ) (st : ClockState) :
    MouseEvent → ClockState
  | MouseEvent.down x y => handleMouseDown rectLeft rectTop (x, y) st
  | MouseEvent.move x y => handleMouseMove rectLeft rectTop (x, y) st
  | MouseEvent.up x y => handleMouseUp rectLeft rectTop (x, y) st

/-- Process a sequence of events in arrival order. -/
noncomputable def run (rectLeft rectTop : ℝ) (st : ClockState)
    (es : List MouseEvent) : ClockState :=
  es.foldl (step rectLeft rectTop) st

end Clock24

namespace Clock24

/-! ## Numeric helper lemmas -/

theorem center_eq : center = 350 := by norm_num [center, size]

theorem radius_eq : radius = 340 := by norm_num [radius, center, size]

theorem floor_of_bounds (x : ℝ) (k : ℤ) (h1 : (k : ℝ) ≤ x) (h2 : x < (k : ℝ) + 1) :
    ⌊x⌋ = k := by
  rw [Int.floor_eq_iff]
  exact ⟨h1, by exact_mod_cast h2⟩

theorem jsTrunc_of_nonneg (x : ℝ) (h : 0 ≤ x) : jsTrunc x = ⌊x⌋ := by
  simp [jsTrunc, h]

theorem jsMod_eval (a n : ℝ) (k : ℤ) (hn : 0 < n) (ha : 0 ≤ a)
    (h1 : n * (k : ℝ) ≤ a) (h2 : a < n * ((k : ℝ) + 1)) : jsMod a n = a - n * k := by
  have hdiv : 0 ≤ a / n := div_nonneg ha hn.le
  rw [jsMod, jsTrunc_of_nonneg _ hdiv]
  have hfl : ⌊a / n⌋ = k := by
    refine floor_of_bounds _ _ ?_ ?_
    · rw [le_div_iff₀ hn]; linarith
    · rw [div_lt_iff₀ hn]; linarith
  rw [hfl]

theorem jsMod_bounds (a n : ℝ) (hn : 0 < n) (ha : 0 ≤ a) :
    0 ≤ jsMod a n ∧ jsMod a n < n := by
  have hdiv : 0 ≤ a / n := div_nonneg ha hn.le
  rw [jsMod, jsTrunc_of_nonneg _ hdiv]
  have he : a - n * ⌊a / n⌋ = n * Int.fract (a / n) := by
    rw [Int.fract]
    field_simp
  rw [he]
  constructor
  · exact mul_nonneg hn.le (Int.fract_nonneg _)
  · calc n * Int.fract (a / n) < n * 1 := by
          exact mul_lt_mul_of_pos_left (Int.fract_lt_one _) hn
      _ = n := mul_one n

/-! ## `jsHypot` and `jsAtan2` facts -/

theorem jsHypot_eq (dx dy : ℝ) : jsHypot dx dy = Real.sqrt (dx ^ 2 + dy ^ 2) := by
  rw [jsHypot, Complex.abs_apply, Complex.normSq_mk]
  ring_nf

theorem jsHypot_eval (dx dy c : ℝ) (hc : 0 ≤ c) (h : dx ^ 2 + dy ^ 2 = c ^ 2) :
    jsHypot dx dy = c := by
  rw [jsHypot_eq, h, Real.sqrt_sq hc]

theorem mk_polar (r θ : ℝ) :
    (⟨r * Real.cos θ, r * Real.sin θ⟩ : ℂ) =
      (r : ℂ) * (Complex.cos θ + Complex.sin θ * Complex.I) := by
  rw [Complex.mk_eq_add_mul_I, ← Complex.ofReal_cos, ← Complex.ofReal_sin]
  push_cast
  ring

theorem jsHypot_polar (r θ : ℝ) (hr : 0 ≤ r) :
    jsHypot (r * Real.cos θ) (r * Real.sin θ) = r := by
  rw [jsHypot, mk_polar, map_mul, Complex.abs_ofReal, abs_of_nonneg hr,
    Complex.abs_cos_add_sin_mul_I, mul_one]

theorem jsAtan2_polar (r θ : ℝ) (hr : 0 < r) (h1 : -Real.pi < θ) (h2 : θ ≤ Real.pi) :
    jsAtan2 (r * Real.sin θ) (r * Real.cos θ) = θ := by
  rw [jsAtan2, mk_polar]
  exact Complex.arg_mul_cos_add_sin_mul_I hr ⟨h1, h2⟩

theorem jsAtan2_mem (dy dx : ℝ) : -Real.pi < jsAtan2 dy dx ∧ jsAtan2 dy dx ≤ Real.pi :=
  ⟨Complex.neg_pi_lt_arg _, Complex.arg_le_pi _⟩

theorem jsHypot_sub_le (x1 y1 x2 y2 : ℝ) :
    jsHypot (x1 - x2) (y1 - y2) ≤ jsHypot x1 y1 + jsHypot x2 y2 := by
  have he : (⟨x1 - x2, y1 - y2⟩ : ℂ) = (⟨x1, y1⟩ : ℂ) - (⟨x2, y2⟩ : ℂ) := by
    apply Complex.ext <;> simp
  rw [jsHypot, jsHypot, jsHypot, he, ← Complex.norm_eq_abs, ← Complex.norm_eq_abs,
    ← Complex.norm_eq_abs]
  exact norm_sub_le _ _

end Clock24

namespace Clock24

/-! ## Resolution lemmas for `getSegmentIndex` -/

theorem getSegmentIndex_inside (clientX clientY rectLeft rectTop : ℝ)
    (h : jsHypot (clientX - rectLeft - center) (clientY - rectTop - center) ≤ radius) :
    getSegmentIndex clientX clientY rectLeft rectTop =
      some ⌊jsMod (jsAtan2 (clientY - rectTop - center) (clientX - rectLeft - center) *
        (180 / Real.pi) + 90 + 360) 360 / 15⌋ := by
  simp only [getSegmentIndex]
  rw [if_neg (not_lt.mpr h)]

theorem getSegmentIndex_outside (clientX clientY rectLeft rectTop : ℝ)
    (h : radius < jsHypot (clientX - rectLeft - center) (clientY - rectTop - center)) :
    getSegmentIndex clientX clientY rectLeft rectTop = none := by
  simp only [getSegmentIndex]
  rw [if_pos h]

/-- Resolving a point given in polar form about the center, for a polar angle
(in degrees) within `atan2`'s principal range. -/
theorem getSegmentIndex_polar (r d : ℝ) (hr0 : 0 < r) (hr : r ≤ radius)
    (hd1 : -180 < d) (hd2 : d ≤ 180) :
    getSegmentIndex (center + r * Real.cos (d * Real.pi / 180))
        (center + r * Real.sin (d * Real.pi / 180)) 0 0 =
      some ⌊jsMod (d + 90 + 360) 360 / 15⌋ := by
  have hpi := Real.pi_pos
  have e1 : center + r * Real.cos (d * Real.pi / 180) - 0 - center
      = r * Real.cos (d * Real.pi / 180) := by ring
  have e2 : center + r * Real.sin (d * Real.pi / 180) - 0 - center
      = r * Real.sin (d * Real.pi / 180) := by ring
  have hθ1 : -Real.pi < d * Real.pi / 180 := by nlinarith
  have hθ2 : d * Real.pi / 180 ≤ Real.pi := by nlinarith
  have hhyp : jsHypot (r * Real.cos (d * Real.pi / 180)) (r * Real.sin (d * Real.pi / 180))
      = r := jsHypot_polar _ _ hr0.le
  have harg : jsAtan2 (r * Real.sin (d * Real.pi / 180)) (r * Real.cos (d * Real.pi / 180))
      = d * Real.pi / 180 := jsAtan2_polar _ _ hr0 hθ1 hθ2
  have hdeg : d * Real.pi / 180 * (180 / Real.pi) = d := by
    field_simp
  rw [getSegmentIndex_inside _ _ _ _ (by rw [e1, e2, hhyp]; exact hr), e1, e2, harg, hdeg]

/-- Evaluate the floor of the normalized angle over fifteen. -/
theorem segFloor_eval (d : ℝ) (i k : ℤ) (h0 : 0 ≤ d + 450)
    (h1 : 360 * (k : ℝ) ≤ d + 450) (h2 : d + 450 < 360 * ((k : ℝ) + 1))
    (h3 : 15 * (i : ℝ) ≤ d + 450 - 360 * k) (h4 : d + 450 - 360 * (k : ℝ) < 15 * ((i : ℝ) + 1)) :
    ⌊jsMod (d + 90 + 360) 360 / 15⌋ = i := by
  have e : d + 90 + 360 = d + 450 := by ring
  rw [e, jsMod_eval _ _ k (by norm_num) h0 h1 h2]
  refine floor_of_bounds _ _ ?_ ?_
  · rw [le_div_iff₀ (by norm_num : (0:ℝ) < 15)]; linarith
  · rw [div_lt_iff₀ (by norm_num : (0:ℝ) < 15)]; linarith

/-- The clock center resolves to segment 6 (`atan2 0 0 = 0`, so the
normalized angle is 90°). -/
theorem seg_center : getSegmentIndex 350 350 0 0 = some 6 := by
  have hz : (⟨(350:ℝ) - 0 - center, (350:ℝ) - 0 - center⟩ : ℂ) = 0 := by
    apply Complex.ext <;> simp [center_eq]
  have hhyp : jsHypot ((350:ℝ) - 0 - center) ((350:ℝ) - 0 - center) = 0 := by
    rw [jsHypot, hz, map_zero]
  have harg : jsAtan2 ((350:ℝ) - 0 - center) ((350:ℝ) - 0 - center) = 0 := by
    rw [jsAtan2, hz, Complex.arg_zero]
  rw [getSegmentIndex_inside _ _ _ _ (by rw [hhyp]; rw [radius_eq]; norm_num), harg]
  norm_num
  rw [jsMod_eval 450 360 1 (by norm_num) (by norm_num) (by norm_num) (by norm_num)]
  exact floor_of_bounds _ 6 (by norm_num) (by norm_num)

end Clock24

namespace Clock24

/-! ## Segment map lemmas -/

theorem objGet_objSet_self (m : SegmentMap) (k : ℤ) (v : String) :
    objGet (objSet m k v) k = some v := by
  induction m with
  | nil => simp [objSet, objGet]
  | cons p rest ih =>
    obtain ⟨k', v'⟩ := p
    by_cases h : k' = k <;> simp [objSet, objGet, h, ih]

theorem objGet_objSet_ne (m : SegmentMap) (k k' : ℤ) (v : String) (h : k' ≠ k) :
    objGet (objSet m k v) k' = objGet m k' := by
  induction m with
  | nil =>
    have hk : ¬ (k = k') := fun hh => h hh.symm
    simp [objSet, objGet, hk]
  | cons p rest ih =>
    obtain ⟨k1, v1⟩ := p
    by_cases h1 : k1 = k
    · subst h1
      have hk : ¬ (k1 = k') := fun hh => h hh.symm
      simp [objSet, objGet, hk]
    · by_cases h2 : k1 = k' <;> simp [objSet, objGet, h, h1, h2, ih]

theorem objGet_objDelete_self (m : SegmentMap) (k : ℤ) :
    objGet (objDelete m k) k = none := by
  induction m with
  | nil => simp [objDelete, objGet]
  | cons p rest ih =>
    obtain ⟨k', v'⟩ := p
    by_cases h : k' = k <;> simp [objDelete, objGet, h, ih]

theorem objGet_objDelete_ne (m : SegmentMap) (k k' : ℤ) (h : k' ≠ k) :
    objGet (objDelete m k) k' = objGet m k' := by
  induction m with
  | nil => simp [objDelete, objGet]
  | cons p rest ih =>
    obtain ⟨k1, v1⟩ := p
    by_cases h1 : k1 = k
    · subst h1
      have hk : ¬ (k1 = k') := fun hh => h hh.symm
      simp [objDelete, objGet, hk, ih]
    · by_cases h2 : k1 = k' <;> simp [objDelete, objGet, h, h1, h2, ih]

/-! ## Handler lemmas -/

theorem handleMouseDown_fields (rectLeft rectTop : ℝ) (e : ℝ × ℝ) (st : ClockState) :
    (handleMouseDown rectLeft rectTop e st).dragging = true ∧
    (handleMouseDown rectLeft rectTop e st).dragStart = some e ∧
    (handleMouseDown rectLeft rectTop e st).dragged = false ∧
    (handleMouseDown rectLeft rectTop e st).activeColor = st.activeColor := by
  unfold handleMouseDown
  cases hseg : getSegmentIndex e.1 e.2 rectLeft rectTop <;> simp

theorem handleMouseDown_paints (rectLeft rectTop : ℝ) (e : ℝ × ℝ) (st : ClockState)
    (seg : ℤ) (hseg : getSegmentIndex e.1 e.2 rectLeft rectTop = some seg) :
    (handleMouseDown rectLeft rectTop e st).segmentColors =
      objSet st.segmentColors seg st.activeColor := by
  unfold handleMouseDown
  rw [hseg]

/-- A pointer-move during a gesture: the `dragging` state, the anchor and the
active color are untouched, and the new drag flag is the old flag "or"
the strict 5-unit threshold test against the anchor. -/
theorem handleMouseMove_fields (rectLeft rectTop : ℝ) (e : ℝ × ℝ) (st : ClockState)
    (hdrag : st.dragging = true) (a : ℝ × ℝ) (hstart : st.dragStart = some a) :
    (handleMouseMove rectLeft rectTop e st).dragging = true ∧
    (handleMouseMove rectLeft rectTop e st).dragStart = some a ∧
    (handleMouseMove rectLeft rectTop e st).activeColor = st.activeColor ∧
    ((handleMouseMove rectLeft rectTop e st).dragged = true ↔
      (st.dragged = true ∨ jsHypot (e.1 - a.1) (e.2 - a.2) > 5)) := by
  unfold handleMouseMove
  by_cases hth : st.dragged = false ∧ jsHypot (e.1 - a.1) (e.2 - a.2) > 5
  · cases hseg : getSegmentIndex e.1 e.2 rectLeft rectTop with
    | none => simp [hdrag, hstart, hth, hth.2]
    | some seg =>
      by_cases hal : objGet st.segmentColors seg = some st.activeColor <;>
        simp [hdrag, hstart, hth, hth.2, hal]
  · have hd : st.dragged = true ∨ ¬ jsHypot (e.1 - a.1) (e.2 - a.2) > 5 := by
      rcases Bool.eq_false_or_eq_true st.dragged with hb | hb
      · left; exact hb
      · right; exact fun hh => hth ⟨hb, hh⟩
    cases hseg : getSegmentIndex e.1 e.2 rectLeft rectTop with
    | none =>
      rcases hd with hb | hb
      · simp [hdrag, hstart, hth, hb]
      · simp [hdrag, hstart, hth, hb]
    | some seg =>
      rcases hd with hb | hb <;>
        by_cases hal : objGet st.segmentColors seg = some st.activeColor <;>
          simp [hdrag, hstart, hth, hb, hal]

/-- A pointer-move during a gesture paints the resolved segment with the
active color and touches no other segment. -/
theorem handleMouseMove_paint (rectLeft rectTop : ℝ) (e : ℝ × ℝ) (st : ClockState)
    (hdrag : st.dragging = true) (a : ℝ × ℝ) (hstart : st.dragStart = some a)
    (seg : ℤ) (hseg : getSegmentIndex e.1 e.2 rectLeft rectTop = some seg) :
    objGet (handleMouseMove rectLeft rectTop e st).segmentColors seg = some st.activeColor ∧
    ∀ k, k ≠ seg →
      objGet (handleMouseMove rectLeft rectTop e st).segmentColors k =
        objGet st.segmentColors k := by
  unfold handleMouseMove
  constructor
  · by_cases hth : st.dragged = false ∧ jsHypot (e.1 - a.1) (e.2 - a.2) > 5 <;>
      by_cases hal : objGet st.segmentColors seg = some st.activeColor <;>
        simp [hdrag, hstart, hth, hseg, hal, objGet_objSet_self]
  · intro k hk
    by_cases hth : st.dragged = false ∧ jsHypot (e.1 - a.1) (e.2 - a.2) > 5 <;>
      by_cases hal : objGet st.segmentColors seg = some st.activeColor <;>
        simp [hdrag, hstart, hth, hseg, hal,
          objGet_objSet_ne st.segmentColors seg k st.activeColor hk]

/-- The drag self-loop short-circuit: if the resolved segment already holds
the active color the updater returns `prev` itself, so the map and the
persisted slot are exactly what they were. -/
theorem handleMouseMove_noop (rectLeft rectTop : ℝ) (e : ℝ × ℝ) (st : ClockState)
    (hdrag : st.dragging = true) (a : ℝ × ℝ) (hstart : st.dragStart = some a)
    (seg : ℤ) (hseg : getSegmentIndex e.1 e.2 rectLeft rectTop = some seg)
    (hal : objGet st.segmentColors seg = some st.activeColor) :
    (handleMouseMove rectLeft rectTop e st).segmentColors = st.segmentColors ∧
    (handleMouseMove rectLeft rectTop e st).storage = st.storage := by
  unfold handleMouseMove
  by_cases hth : st.dragged = false ∧ jsHypot (e.1 - a.1) (e.2 - a.2) > 5 <;>
    simp [hdrag, hstart, hth, hseg, hal]

/-- A pointer-move that stays within the threshold and lands on a segment
already holding the active color changes nothing at all. -/
theorem handleMouseMove_skip (rectLeft rectTop : ℝ) (e : ℝ × ℝ) (st : ClockState)
    (a : ℝ × ℝ) (hstart : st.dragStart = some a)
    (hth : ¬ jsHypot (e.1 - a.1) (e.2 - a.2) > 5)
    (seg : ℤ) (hseg : getSegmentIndex e.1 e.2 rectLeft rectTop = some seg)
    (hal : objGet st.segmentColors seg = some st.activeColor) :
    handleMouseMove rectLeft rectTop e st = st := by
  unfold handleMouseMove
  by_cases hdrag : st.dragging = false
  · simp [hdrag]
  · have hth2 : ¬ (st.dragged = false ∧ jsHypot (e.1 - a.1) (e.2 - a.2) > 5) :=
      fun hh => hth hh.2
    simp [hdrag, hstart, hth2, hseg, hal]

/-- A pointer-move that stays within the threshold and paints a segment not
already holding the active color: only the map and the slot change. -/
theorem handleMouseMove_paint_eq (rectLeft rectTop : ℝ) (e : ℝ × ℝ) (st : ClockState)
    (hdrag : st.dragging = true) (a : ℝ × ℝ) (hstart : st.dragStart = some a)
    (hth : ¬ jsHypot (e.1 - a.1) (e.2 - a.2) > 5)
    (seg : ℤ) (hseg : getSegmentIndex e.1 e.2 rectLeft rectTop = some seg)
    (hal : ¬ objGet st.segmentColors seg = some st.activeColor) :
    handleMouseMove rectLeft rectTop e st =
      { st with
          segmentColors := objSet st.segmentColors seg st.activeColor,
          storage := some (stringify (objSet st.segmentColors seg st.activeColor)) } := by
  unfold handleMouseMove
  have hth2 : ¬ (st.dragged = false ∧ jsHypot (e.1 - a.1) (e.2 - a.2) > 5) :=
    fun hh => hth hh.2
  simp [hdrag, hstart, hth2, hseg, hal]

/-- Pointer-up with the drag flag still unset applies the click-toggle
semantics to the segment under the pointer and stops dragging. -/
theorem handleMouseUp_toggle (rectLeft rectTop : ℝ) (e : ℝ × ℝ) (st : ClockState)
    (h : st.dragged = false) :
    (handleMouseUp rectLeft rectTop e st).segmentColors =
      toggleAt st.segmentColors st.activeColor (getSegmentIndex e.1 e.2 rectLeft rectTop) ∧
    (handleMouseUp rectLeft rectTop e st).dragging = false := by
  unfold handleMouseUp
  cases hseg : getSegmentIndex e.1 e.2 rectLeft rectTop with
  | none => simp [h, hseg, toggleAt]
  | some seg =>
    by_cases hal : objGet st.segmentColors seg = some st.activeColor <;>
      simp [h, hseg, toggleAt, hal]

/-- Pointer-up after the gesture became a drag mutates nothing: the map and
the persisted slot stand, only `dragging` is cleared. -/
theorem handleMouseUp_dragged (rectLeft rectTop : ℝ) (e : ℝ × ℝ) (st : ClockState)
    (h : st.dragged = true) :
    (handleMouseUp rectLeft rectTop e st).segmentColors = st.segmentColors ∧
    (handleMouseUp rectLeft rectTop e st).storage = st.storage ∧
    (handleMouseUp rectLeft rectTop e st).dragging = false := by
  unfold handleMouseUp
  simp [h]

end Clock24

namespace Clock24

/-- Folding a list of pointer-moves over a gesture in progress: `dragging`,
the anchor and the active color are preserved, and the drag flag ends up set
exactly when it was already set or some move exceeded the 5-unit threshold
from the anchor. -/
theorem foldMove_fields (rectLeft rectTop : ℝ) (a : ℝ × ℝ) (ms : List (ℝ × ℝ))
    (st : ClockState) (hdrag : st.dragging = true) (hstart : st.dragStart = some a) :
    (ms.foldl (fun s m => handleMouseMove rectLeft rectTop m s) st).dragging = true ∧
    (ms.foldl (fun s m => handleMouseMove rectLeft rectTop m s) st).dragStart = some a ∧
    (ms.foldl (fun s m => handleMouseMove rectLeft rectTop m s) st).activeColor
      = st.activeColor ∧
    ((ms.foldl (fun s m => handleMouseMove rectLeft rectTop m s) st).dragged = true ↔
      (st.dragged = true ∨ ∃ m ∈ ms, jsHypot (m.1 - a.1) (m.2 - a.2) > 5)) := by
  induction ms generalizing st with
  | nil => simp [hdrag, hstart]
  | cons m rest ih =>
    simp only [List.foldl_cons]
    obtain ⟨hg, hs, hc, hd⟩ :=
      handleMouseMove_fields rectLeft rectTop m st hdrag a hstart
    obtain ⟨ihg, ihs, ihc, ihd⟩ :=
      ih (handleMouseMove rectLeft rectTop m st) hg hs
    refine ⟨ihg, ihs, by rw [ihc, hc], ?_⟩
    rw [ihd, hd]
    constructor
    · rintro ((hb | hb) | ⟨q, hq, hgt⟩)
      · exact Or.inl hb
      · exact Or.inr ⟨m, List.mem_cons_self m rest, hb⟩
      · exact Or.inr ⟨q, List.mem_cons_of_mem m hq, hgt⟩
    · rintro (hb | ⟨q, hq, hgt⟩)
      · exact Or.inl (Or.inl hb)
      · rcases List.mem_cons.mp hq with rfl | hq
        · exact Or.inl (Or.inr hgt)
        · exact Or.inr ⟨q, hq, hgt⟩

end Clock24

namespace Clock24

/-- The `atan2` angle in degrees lies in `(-180, 180]`. -/
theorem deg_bounds (dy dx : ℝ) :
    -180 < jsAtan2 dy dx * (180 / Real.pi) ∧ jsAtan2 dy dx * (180 / Real.pi) ≤ 180 := by
  have hpi := Real.pi_pos
  obtain ⟨ha1, ha2⟩ := jsAtan2_mem dy dx
  have hfrac : (0 : ℝ) < 180 / Real.pi := by positivity
  constructor
  · have hmul := mul_lt_mul_of_pos_right ha1 hfrac
    have he : -Real.pi * (180 / Real.pi) = -180 := by
      field_simp
      ring
    linarith
  · have hmul := mul_le_mul_of_nonneg_right ha2 hfrac.le
    have he : Real.pi * (180 / Real.pi) = 180 := by
      field_simp
    linarith

/-- On nonnegative input the JavaScript `%` agrees with the spec's
mathematical modulus. -/
theorem jsMod_eq_specNormalize (d : ℝ) (h0 : 0 ≤ d + 90 + 360) :
    jsMod (d + 90 + 360) 360 = specNormalize d := by
  rw [jsMod, specNormalize, jsTrunc_of_nonneg _ (div_nonneg h0 (by norm_num))]

end Clock24

namespace Clock24

/-- C3: for every pointer position whose Euclidean distance from the surface
center is at most the radius, `getSegmentIndex` returns an integer segment
index in `[0, 23]`; when the distance strictly exceeds the radius it returns
`none`, as a normal (non-error) outcome. -/
theorem resolver_range_and_outside (clientX clientY rectLeft rectTop : ℝ) :
    (jsHypot (clientX - rectLeft - center) (clientY - rectTop - center) ≤ radius →
      ∃ k : ℤ, getSegmentIndex clientX clientY rectLeft rectTop = some k ∧
        0 ≤ k ∧ k ≤ 23) ∧
    (radius < jsHypot (clientX - rectLeft - center) (clientY - rectTop - center) →
      getSegmentIndex clientX clientY rectLeft rectTop = none) := by
  constructor
  · intro h
    rw [getSegmentIndex_inside _ _ _ _ h]
    obtain ⟨hd1, hd2⟩ :=
      deg_bounds (clientY - rectTop - center) (clientX - rectLeft - center)
    have ha0 : 0 ≤ jsAtan2 (clientY - rectTop - center) (clientX - rectLeft - center) *
        (180 / Real.pi) + 90 + 360 := by linarith
    obtain ⟨hm0, hm1⟩ := jsMod_bounds
      (jsAtan2 (clientY - rectTop - center) (clientX - rectLeft - center) *
        (180 / Real.pi) + 90 + 360) 360 (by norm_num) ha0
    refine ⟨_, rfl, ?_, ?_⟩
    · exact Int.floor_nonneg.mpr (div_nonneg hm0 (by norm_num))
    · have h24 : ⌊jsMod (jsAtan2 (clientY - rectTop - center)
          (clientX - rectLeft - center) * (180 / Real.pi) + 90 + 360) 360 / 15⌋ < 24 := by
        rw [Int.floor_lt]
        push_cast
        rw [div_lt_iff₀ (by norm_num : (0:ℝ) < 15)]
        linarith
      omega
  · exact getSegmentIndex_outside clientX clientY rectLeft rectTop

/-- Witness for C3: the point `(350, 690)` (distance 340 from the center,
on the boundary) resolves to a segment index in range, and the point
`(1000, 350)` (distance 650) resolves to `none`. -/
theorem resolver_range_and_outside_witness :
    (∃ k : ℤ, getSegmentIndex 350 690 0 0 = some k ∧ 0 ≤ k ∧ k ≤ 23) ∧
    getSegmentIndex 1000 350 0 0 = none := by
  constructor
  · refine (resolver_range_and_outside 350 690 0 0).1 ?_
    rw [show (350:ℝ) - 0 - center = 0 by rw [center_eq]; norm_num,
      show (690:ℝ) - 0 - center = 340 by rw [center_eq]; norm_num,
      jsHypot_eval 0 340 340 (by norm_num) (by norm_num), radius_eq]
  · refine (resolver_range_and_outside 1000 350 0 0).2 ?_
    rw [show (1000:ℝ) - 0 - center = 650 by rw [center_eq]; norm_num,
      show (350:ℝ) - 0 - center = 0 by rw [center_eq]; norm_num,
      jsHypot_eval 650 0 650 (by norm_num) (by norm_num), radius_eq]
    norm_num

/-- C4: inside the circle the returned index is `⌊a / 15⌋` for
`a = (atan2-angle-in-degrees + 90 + 360) mod 360`, and segment `i` is
returned exactly when the normalized top-relative angle lies in
`[i·15, (i+1)·15)`. -/
theorem resolver_floor_formula (clientX clientY rectLeft rectTop : ℝ)
    (h : jsHypot (clientX - rectLeft - center) (clientY - rectTop - center) ≤ radius) :
    getSegmentIndex clientX clientY rectLeft rectTop =
      some ⌊specNormalize (jsAtan2 (clientY - rectTop - center)
        (clientX - rectLeft - center) * (180 / Real.pi)) / 15⌋ ∧
    ∀ i : ℤ, (getSegmentIndex clientX clientY rectLeft rectTop = some i ↔
      (i : ℝ) * 15 ≤ specNormalize (jsAtan2 (clientY - rectTop - center)
          (clientX - rectLeft - center) * (180 / Real.pi)) ∧
        specNormalize (jsAtan2 (clientY - rectTop - center)
          (clientX - rectLeft - center) * (180 / Real.pi)) < ((i : ℝ) + 1) * 15) := by
  obtain ⟨hd1, hd2⟩ :=
    deg_bounds (clientY - rectTop - center) (clientX - rectLeft - center)
  have ha0 : 0 ≤ jsAtan2 (clientY - rectTop - center) (clientX - rectLeft - center) *
      (180 / Real.pi) + 90 + 360 := by linarith
  have hmain : getSegmentIndex clientX clientY rectLeft rectTop =
      some ⌊specNormalize (jsAtan2 (clientY - rectTop - center)
        (clientX - rectLeft - center) * (180 / Real.pi)) / 15⌋ := by
    rw [getSegmentIndex_inside _ _ _ _ h, jsMod_eq_specNormalize _ ha0]
  refine ⟨hmain, fun i => ?_⟩
  rw [hmain, Option.some_inj]
  constructor
  · rintro rfl
    constructor
    · have hle := Int.floor_le (specNormalize (jsAtan2 (clientY - rectTop - center)
        (clientX - rectLeft - center) * (180 / Real.pi)) / 15)
      rw [le_div_iff₀ (by norm_num : (0:ℝ) < 15)] at hle
      linarith
    · have hlt := Int.lt_floor_add_one (specNormalize (jsAtan2 (clientY - rectTop - center)
        (clientX - rectLeft - center) * (180 / Real.pi)) / 15)
      rw [div_lt_iff₀ (by norm_num : (0:ℝ) < 15)] at hlt
      linarith
  · rintro ⟨hl, hr⟩
    refine floor_of_bounds _ _ ?_ ?_
    · rw [le_div_iff₀ (by norm_num : (0:ℝ) < 15)]
      linarith
    · rw [div_lt_iff₀ (by norm_num : (0:ℝ) < 15)]
      linarith

/-- Witness for C4, at the inside point `(350, 690)`. -/
theorem resolver_floor_formula_witness :
    getSegmentIndex 350 690 0 0 =
      some ⌊specNormalize (jsAtan2 ((690:ℝ) - 0 - center)
        ((350:ℝ) - 0 - center) * (180 / Real.pi)) / 15⌋ := by
  refine (resolver_floor_formula 350 690 0 0 ?_).1
  rw [show (350:ℝ) - 0 - center = 0 by rw [center_eq]; norm_num,
    show (690:ℝ) - 0 - center = 340 by rw [center_eq]; norm_num,
    jsHypot_eval 0 340 340 (by norm_num) (by norm_num), radius_eq]

end Clock24

namespace Clock24

/-- Counterexample for C2: the startup load has no `try`/`catch`, so a
malformed (non-JSON) persisted string makes `JSON.parse` throw out of the
`useState` initializer instead of being recovered as an empty map. -/
theorem load_malformed_throws :
    load (some "oops") = Except.error "SyntaxError: Unexpected token in JSON" := by
  rfl

/-- C2 amended: the startup load returns an empty map when the persisted
value is absent or the empty string; any other persisted string goes
through `JSON.parse` with no `try`/`catch`: a valid JSON document's parsed
value is returned unchanged (it need not be a map), and on malformed input
the parse exception propagates out of the initializer — it is not recovered
as an empty map. -/
theorem load_amended :
    load none = Except.ok (JsValue.objV []) ∧
    load (some "") = Except.ok (JsValue.objV []) ∧
    (∀ s v, jsParse s = some v → load (some s) = Except.ok v) ∧
    (∀ s, s ≠ "" → jsParse s = none → ∃ msg, load (some s) = Except.error msg) := by
  refine ⟨rfl, rfl, fun s v hv => ?_, fun s hs hn => ?_⟩
  · have hs : s ≠ "" := by
      intro he
      rw [he, show jsParse "" = none from rfl] at hv
      cases hv
    simp only [load]
    rw [if_neg hs, hv]
  · simp only [load]
    rw [if_neg hs, hn]
    exact ⟨_, rfl⟩

/-- Witness for C2 amended: the absent slot, a malformed slot, and concrete
parses — the app's own persisted shape, a bare number, an array, a
non-integer-keyed object, a string with a `\u` escape, and duplicate keys
resolved last-wins, each returned exactly as `JSON.parse` produces it. -/
theorem load_amended_witness :
    load none = Except.ok (JsValue.objV []) ∧
    (∃ msg, load (some "oops") = Except.error msg) ∧
    load (some (stringify [(3, "green")]))
      = Except.ok (JsValue.objV [([51], JsValue.strV [103, 114, 101, 101, 110])]) ∧
    load (some "5") = Except.ok (JsValue.numV "5") ∧
    load (some "[1]") = Except.ok (JsValue.arrV [JsValue.numV "1"]) ∧
    load (some "\x7b\"ab\":\"x\"\x7d")
      = Except.ok (JsValue.objV [([97, 98], JsValue.strV [120])]) ∧
    load (some "\"gre\\u0065n\"") = Except.ok (JsValue.strV [103, 114, 101, 101, 110]) ∧
    load (some "\x7b\"a\":\"1\",\"a\":\"2\"\x7d")
      = Except.ok (JsValue.objV [([97], JsValue.strV [50])]) := by
  refine ⟨load_amended.1, (load_amended.2.2.2 "oops" (by decide) (by rfl)),
    load_amended.2.2.1 _ _ (by rfl), load_amended.2.2.1 _ _ (by rfl),
    load_amended.2.2.1 _ _ (by rfl), load_amended.2.2.1 _ _ (by rfl),
    load_amended.2.2.1 _ _ (by rfl), load_amended.2.2.1 _ _ (by rfl)⟩

/-- C8: after `clearClock` the in-memory map is empty, the persisted slot
holds the serialization of the empty map (`removeItem` runs first, then the
persistence effect writes `JSON.stringify({})` back), and a subsequent
startup load of that slot returns an empty map. -/
theorem clear_empties_and_reloads_empty (st : ClockState) :
    (clearClock st).segmentColors = [] ∧
    (clearClock st).storage = some (stringify ([] : SegmentMap)) ∧
    load (some (stringify ([] : SegmentMap))) = Except.ok (JsValue.objV []) := by
  exact ⟨rfl, rfl, by rfl⟩

/-- Witness for C8 at a concrete populated state. -/
theorem clear_empties_witness :
    (clearClock ⟨[(3, "green")], "blue", false, none, false, some "x"⟩).segmentColors = [] ∧
    load ((clearClock ⟨[(3, "green")], "blue", false, none, false,
      some "x"⟩).storage) = Except.ok (JsValue.objV []) := by
  have h := clear_empties_and_reloads_empty
    ⟨[(3, "green")], "blue", false, none, false, some "x"⟩
  exact ⟨h.1, by rw [h.2.1]; exact h.2.2⟩

/-- C9: a pointer-move step during a gesture whose resolved segment already
holds the active category returns `prev` itself from the updater: the map is
the identical value and the persisted slot is not rewritten. -/
theorem drag_selfloop_noop (rectLeft rectTop : ℝ) (e : ℝ × ℝ) (st : ClockState)
    (hdrag : st.dragging = true) (a : ℝ × ℝ) (hstart : st.dragStart = some a)
    (seg : ℤ) (hseg : getSegmentIndex e.1 e.2 rectLeft rectTop = some seg)
    (hal : objGet st.segmentColors seg = some st.activeColor) :
    (handleMouseMove rectLeft rectTop e st).segmentColors = st.segmentColors ∧
    (handleMouseMove rectLeft rectTop e st).storage = st.storage :=
  handleMouseMove_noop rectLeft rectTop e st hdrag a hstart seg hseg hal

/-- Witness for C9: moving over segment 6 (already blue) with active color
blue leaves the map and the slot untouched. -/
theorem drag_selfloop_noop_witness :
    (handleMouseMove 0 0 (350, 350)
      ⟨[(6, "blue")], "blue", true, some (350, 350), false, none⟩).segmentColors
        = [(6, "blue")] ∧
    (handleMouseMove 0 0 (350, 350)
      ⟨[(6, "blue")], "blue", true, some (350, 350), false, none⟩).storage = none := by
  exact drag_selfloop_noop 0 0 (350, 350)
    ⟨[(6, "blue")], "blue", true, some (350, 350), false, none⟩ rfl
    (350, 350) rfl 6 seg_center rfl

/-- C10: the mouse-up handler keys only off the drag flag: at mount the flag
is false, and whenever it is false a pointer-up applies the click-toggle
semantics to the segment under the pointer even if no pointer-down started a
gesture; only while the flag is still true (after a drag, until the next
pointer-down resets it) is a stray pointer-up a map no-op. -/
theorem stray_mouseup (rectLeft rectTop : ℝ) (q : ℝ × ℝ) (st : ClockState) :
    (∀ saved st0, initClock saved = Except.ok st0 → st0.dragged = false) ∧
    ((handleMouseUp rectLeft rectTop q st).dragged = st.dragged) ∧
    ((handleMouseDown rectLeft rectTop q st).dragged = false) ∧
    (st.dragged = false →
      (handleMouseUp rectLeft rectTop q st).segmentColors =
        toggleAt st.segmentColors st.activeColor
          (getSegmentIndex q.1 q.2 rectLeft rectTop)) ∧
    (st.dragged = true →
      (handleMouseUp rectLeft rectTop q st).segmentColors = st.segmentColors) := by
  refine ⟨?_, ?_, (handleMouseDown_fields rectLeft rectTop q st).2.2.1,
    fun h => (handleMouseUp_toggle rectLeft rectTop q st h).1,
    fun h => (handleMouseUp_dragged rectLeft rectTop q st h).1⟩
  case refine_2 =>
    unfold handleMouseUp
    cases hseg : getSegmentIndex q.1 q.2 rectLeft rectTop <;>
      by_cases h : st.dragged = false <;>
        by_cases hal : objGet st.segmentColors
          ((getSegmentIndex q.1 q.2 rectLeft rectTop).getD 0) = some st.activeColor <;>
          simp [h, hseg, hal]
  intro saved st0 h0
  unfold initClock at h0
  cases hl : load saved with
  | ok v =>
    rw [hl] at h0
    simp only [Except.bind] at h0
    cases hd : decodeSegMap v with
    | some m =>
      rw [hd] at h0
      injection h0 with h0
      rw [← h0]
    | none =>
      rw [hd] at h0
      exact absurd h0 (by simp)
  | error msg =>
    rw [hl] at h0
    simp only [Except.bind] at h0
    exact absurd h0 (by simp)

/-- Witness for C10: a stray pointer-up over segment 6 with no gesture in
progress assigns the active color (toggle semantics) from the initial
state's empty map. -/
theorem stray_mouseup_witness :
    (handleMouseUp 0 0 (350, 350)
      ⟨[], "blue", false, none, false, none⟩).segmentColors = [(6, "blue")] := by
  have h := (stray_mouseup 0 0 (350, 350)
    ⟨[], "blue", false, none, false, none⟩).2.2.2.1 rfl
  rw [h, show getSegmentIndex ((350:ℝ), (350:ℝ)).1 ((350:ℝ), (350:ℝ)).2 0 0 = some 6
    from seg_center]
  decide

end Clock24

namespace Clock24

/-- C5: over a gesture (pointer-down at `p`, then the moves `ms`), the drag
flag ends up set iff some move strictly exceeded the 5-unit Euclidean
threshold from the anchor; once set over a prefix it stays set; and when no
move exceeded the threshold the pointer-up is handled as a click, applying
the toggle semantics to the segment under the pointer even though
intermediate moves occurred. -/
theorem gesture_drag_classification (rectLeft rectTop : ℝ) (st0 : ClockState)
    (p : ℝ × ℝ) (ms : List (ℝ × ℝ)) (q : ℝ × ℝ) :
    ((ms.foldl (fun s m => handleMouseMove rectLeft rectTop m s)
        (handleMouseDown rectLeft rectTop p st0)).dragged = true ↔
      ∃ m ∈ ms, jsHypot (m.1 - p.1) (m.2 - p.2) > 5) ∧
    (∀ ms1 ms2, ms = ms1 ++ ms2 →
      (ms1.foldl (fun s m => handleMouseMove rectLeft rectTop m s)
        (handleMouseDown rectLeft rectTop p st0)).dragged = true →
      (ms.foldl (fun s m => handleMouseMove rectLeft rectTop m s)
        (handleMouseDown rectLeft rectTop p st0)).dragged = true) ∧
    ((¬ ∃ m ∈ ms, jsHypot (m.1 - p.1) (m.2 - p.2) > 5) →
      (handleMouseUp rectLeft rectTop q
          (ms.foldl (fun s m => handleMouseMove rectLeft rectTop m s)
            (handleMouseDown rectLeft rectTop p st0))).segmentColors =
        toggleAt
          (ms.foldl (fun s m => handleMouseMove rectLeft rectTop m s)
            (handleMouseDown rectLeft rectTop p st0)).segmentColors
          st0.activeColor (getSegmentIndex q.1 q.2 rectLeft rectTop)) := by
  obtain ⟨hg, hs, hd0, hc⟩ := handleMouseDown_fields rectLeft rectTop p st0
  obtain ⟨fg, fs, fc, fd⟩ := foldMove_fields rectLeft rectTop p ms
    (handleMouseDown rectLeft rectTop p st0) hg hs
  have hiff : (ms.foldl (fun s m => handleMouseMove rectLeft rectTop m s)
      (handleMouseDown rectLeft rectTop p st0)).dragged = true ↔
      ∃ m ∈ ms, jsHypot (m.1 - p.1) (m.2 - p.2) > 5 := by
    rw [fd, hd0]
    simp
  refine ⟨hiff, ?_, ?_⟩
  · rintro ms1 ms2 rfl h1
    obtain ⟨f1g, f1s, _, _⟩ := foldMove_fields rectLeft rectTop p ms1
      (handleMouseDown rectLeft rectTop p st0) hg hs
    obtain ⟨_, _, _, f2d⟩ := foldMove_fields rectLeft rectTop p ms2
      (ms1.foldl (fun s m => handleMouseMove rectLeft rectTop m s)
        (handleMouseDown rectLeft rectTop p st0)) f1g f1s
    rw [List.foldl_append]
    exact f2d.mpr (Or.inl h1)
  · intro hno
    have hdf : (ms.foldl (fun s m => handleMouseMove rectLeft rectTop m s)
        (handleMouseDown rectLeft rectTop p st0)).dragged = false := by
      rcases Bool.eq_false_or_eq_true ((ms.foldl (fun s m => handleMouseMove rectLeft rectTop m s)
        (handleMouseDown rectLeft rectTop p st0)).dragged) with hb | hb
      · exact absurd (hiff.mp hb) hno
      · exact hb
    have := (handleMouseUp_toggle rectLeft rectTop q _ hdf).1
    rw [this, fc, hc]

/-- Witness for C5: a single move 10 units from the anchor classifies the
gesture as a drag. -/
theorem gesture_drag_classification_witness :
    ([((356:ℝ), (358:ℝ))].foldl (fun s m => handleMouseMove 0 0 m s)
      (handleMouseDown 0 0 (350, 350)
        ⟨[], "blue", false, none, false, none⟩)).dragged = true := by
  refine (gesture_drag_classification 0 0 ⟨[], "blue", false, none, false, none⟩
    (350, 350) [(356, 358)] (0, 0)).1.mpr ?_
  refine ⟨(356, 358), List.mem_singleton_self _, ?_⟩
  show jsHypot ((356:ℝ) - 350) ((358:ℝ) - 350) > 5
  rw [show (356:ℝ) - 350 = 6 by norm_num, show (358:ℝ) - 350 = 8 by norm_num,
    jsHypot_eval 6 8 10 (by norm_num) (by norm_num)]
  norm_num

end Clock24

namespace Clock24

/-- C7: for every segment `i`, the midpoint of the rendered wedge's angular
range (`i*15 + 7.5 - 90` degrees in the trig convention used by
`renderSegment`/`polarToCartesian`) at half radius hit-tests back to exactly
segment `i`: the hit-test boundaries agree with the rendering boundaries. -/
theorem midpoint_roundtrip (i : ℕ) (h : i < 24) :
    getSegmentIndex (polarToCartesian ((i : ℝ) * 15 + 7.5 - 90) (radius / 2)).1
      (polarToCartesian ((i : ℝ) * 15 + 7.5 - 90) (radius / 2)).2 0 0 = some (i : ℤ) := by
  have hr0 : (0:ℝ) < radius / 2 := by rw [radius_eq]; norm_num
  have hrle : radius / 2 ≤ radius := by rw [radius_eq]; norm_num
  have hnn : (0:ℝ) ≤ (i : ℝ) := Nat.cast_nonneg i
  have hi23 : (i : ℝ) ≤ 23 := by
    have : i ≤ 23 := by omega
    exact_mod_cast this
  show getSegmentIndex
      (center + radius / 2 * Real.cos (((i : ℝ) * 15 + 7.5 - 90) * Real.pi / 180))
      (center + radius / 2 * Real.sin (((i : ℝ) * 15 + 7.5 - 90) * Real.pi / 180))
      0 0 = some (i : ℤ)
  by_cases hc : i ≤ 17
  · have hle17 : (i : ℝ) ≤ 17 := by exact_mod_cast hc
    rw [getSegmentIndex_polar _ _ hr0 hrle (by linarith) (by linarith), Option.some_inj]
    rw [show ((i:ℝ) * 15 + 7.5 - 90) + 90 + 360 = (i:ℝ) * 15 + 367.5 by ring,
      jsMod_eval _ 360 1 (by norm_num) (by linarith) (by push_cast; linarith)
        (by push_cast; linarith),
      show (i:ℝ) * 15 + 367.5 - 360 * ((1:ℤ) : ℝ) = (i:ℝ) * 15 + 7.5 by push_cast; ring]
    refine floor_of_bounds _ _ ?_ ?_
    · rw [le_div_iff₀ (by norm_num : (0:ℝ) < 15)]
      push_cast
      linarith
    · rw [div_lt_iff₀ (by norm_num : (0:ℝ) < 15)]
      push_cast
      linarith
  · have hge18 : (18:ℝ) ≤ (i : ℝ) := by
      have : 18 ≤ i := by omega
      exact_mod_cast this
    rw [show ((i:ℝ) * 15 + 7.5 - 90) * Real.pi / 180
        = (((i:ℝ) * 15 + 7.5 - 90) - 360) * Real.pi / 180 + 2 * Real.pi by ring,
      Real.cos_add_two_pi, Real.sin_add_two_pi]
    rw [getSegmentIndex_polar _ _ hr0 hrle (by linarith) (by linarith), Option.some_inj]
    rw [show (((i:ℝ) * 15 + 7.5 - 90) - 360) + 90 + 360 = (i:ℝ) * 15 + 7.5 by ring,
      jsMod_eval _ 360 0 (by norm_num) (by linarith) (by push_cast; linarith)
        (by push_cast; linarith),
      show (i:ℝ) * 15 + 7.5 - 360 * ((0:ℤ) : ℝ) = (i:ℝ) * 15 + 7.5 by push_cast; ring]
    refine floor_of_bounds _ _ ?_ ?_
    · rw [le_div_iff₀ (by norm_num : (0:ℝ) < 15)]
      push_cast
      linarith
    · rw [div_lt_iff₀ (by norm_num : (0:ℝ) < 15)]
      push_cast
      linarith

/-- Witness for C7 at segment 5. -/
theorem midpoint_roundtrip_witness :
    getSegmentIndex (polarToCartesian (((5:ℕ) : ℝ) * 15 + 7.5 - 90) (radius / 2)).1
      (polarToCartesian (((5:ℕ) : ℝ) * 15 + 7.5 - 90) (radius / 2)).2 0 0
      = some ((5:ℕ) : ℤ) :=
  midpoint_roundtrip 5 (by norm_num)

end Clock24

namespace Clock24

/-- C1 (code bug): a full click gesture — pointer-down and pointer-up on the
same segment with no intervening move — does NOT leave an unassigned segment
assigned to the active category.  The down-handler assigns the active color,
so the up-handler's toggle always sees the active color on the segment and
removes it: every plain click ends with the segment unassigned, and a second
identical gesture does too.  Here: segment 6 (the point `(350, 350)`),
active color `"blue"`, starting from the empty map. -/
theorem click_round_trip_fails :
    getSegmentIndex ((350:ℝ), (350:ℝ)).1 ((350:ℝ), (350:ℝ)).2 0 0 = some 6 ∧
    objGet (run 0 0 ⟨[], "blue", false, none, false, none⟩
      [MouseEvent.down 350 350, MouseEvent.up 350 350]).segmentColors 6 = none ∧
    objGet (run 0 0 ⟨[], "blue", false, some (350, 350), false,
        some (stringify ([] : SegmentMap))⟩
      [MouseEvent.down 350 350, MouseEvent.up 350 350]).segmentColors 6 = none := by
  have hseg : getSegmentIndex ((350:ℝ), (350:ℝ)).1 ((350:ℝ), (350:ℝ)).2 0 0 = some 6 :=
    seg_center
  have h2 : handleMouseDown 0 0 (350, 350)
      (⟨[], "blue", false, none, false, none⟩ : ClockState)
      = ⟨[(6, "blue")], "blue", true, some (350, 350), false,
          some (stringify [(6, "blue")])⟩ := by
    unfold handleMouseDown
    rw [hseg]
    rfl
  have h3 : handleMouseUp 0 0 (350, 350)
      (⟨[(6, "blue")], "blue", true, some (350, 350), false,
          some (stringify [(6, "blue")])⟩ : ClockState)
      = ⟨[], "blue", false, some (350, 350), false,
          some (stringify ([] : SegmentMap))⟩ := by
    unfold handleMouseUp
    rw [hseg]
    rfl
  have h4 : handleMouseDown 0 0 (350, 350)
      (⟨[], "blue", false, some (350, 350), false,
          some (stringify ([] : SegmentMap))⟩ : ClockState)
      = ⟨[(6, "blue")], "blue", true, some (350, 350), false,
          some (stringify [(6, "blue")])⟩ := by
    unfold handleMouseDown
    rw [hseg]
    rfl
  have hrun1 : run 0 0 ⟨[], "blue", false, none, false, none⟩
      [MouseEvent.down 350 350, MouseEvent.up 350 350]
      = handleMouseUp 0 0 (350, 350)
          (handleMouseDown 0 0 (350, 350)
            ⟨[], "blue", false, none, false, none⟩) := rfl
  have hrun2 : run 0 0 ⟨[], "blue", false, some (350, 350), false,
        some (stringify ([] : SegmentMap))⟩
      [MouseEvent.down 350 350, MouseEvent.up 350 350]
      = handleMouseUp 0 0 (350, 350)
          (handleMouseDown 0 0 (350, 350)
            ⟨[], "blue", false, some (350, 350), false,
              some (stringify ([] : SegmentMap))⟩) := rfl
  refine ⟨hseg, ?_, ?_⟩
  · rw [hrun1, h2, h3]
    rfl
  · rw [hrun2, h4, h3]
    rfl

end Clock24

namespace Clock24

/-- C6 amended: a pointer-down resolved to segment 3, pointer-moves resolved
to segments [3,3,4,5], and a pointer-up, with active category "green" and
with some move exceeding the 5-unit drag threshold from the anchor (so the
gesture is a drag and the pointer-up paints nothing), leave segments 3, 4
and 5 mapped to "green" and every other segment exactly as it was. -/
theorem drag_paint_green (rectLeft rectTop : ℝ) (st0 : ClockState)
    (px py q1x q1y q2x q2y q3x q3y q4x q4y ux uy : ℝ)
    (hactive : st0.activeColor = "green")
    (hp : getSegmentIndex px py rectLeft rectTop = some 3)
    (h1 : getSegmentIndex q1x q1y rectLeft rectTop = some 3)
    (h2 : getSegmentIndex q2x q2y rectLeft rectTop = some 3)
    (h3 : getSegmentIndex q3x q3y rectLeft rectTop = some 4)
    (h4 : getSegmentIndex q4x q4y rectLeft rectTop = some 5)
    (hdragmove : ∃ m ∈ [((q1x:ℝ), q1y), (q2x, q2y), (q3x, q3y), (q4x, q4y)],
      jsHypot (m.1 - px) (m.2 - py) > 5) :
    let stf := run rectLeft rectTop st0
      [MouseEvent.down px py, MouseEvent.move q1x q1y, MouseEvent.move q2x q2y,
       MouseEvent.move q3x q3y, MouseEvent.move q4x q4y, MouseEvent.up ux uy]
    objGet stf.segmentColors 3 = some "green" ∧
    objGet stf.segmentColors 4 = some "green" ∧
    objGet stf.segmentColors 5 = some "green" ∧
    ∀ k : ℤ, k ≠ 3 → k ≠ 4 → k ≠ 5 →
      objGet stf.segmentColors k = objGet st0.segmentColors k := by
  intro stf
  obtain ⟨g1, s1, d1, c1⟩ := handleMouseDown_fields rectLeft rectTop (px, py) st0
  have map1 := handleMouseDown_paints rectLeft rectTop (px, py) st0 3 hp
  obtain ⟨pa1, fr1⟩ :=
    handleMouseMove_paint rectLeft rectTop (q1x, q1y) _ g1 (px, py) s1 3 h1
  obtain ⟨g2, s2, c2, _⟩ :=
    handleMouseMove_fields rectLeft rectTop (q1x, q1y) _ g1 (px, py) s1
  obtain ⟨pa2, fr2⟩ :=
    handleMouseMove_paint rectLeft rectTop (q2x, q2y) _ g2 (px, py) s2 3 h2
  obtain ⟨g3, s3, c3, _⟩ :=
    handleMouseMove_fields rectLeft rectTop (q2x, q2y) _ g2 (px, py) s2
  obtain ⟨pa3, fr3⟩ :=
    handleMouseMove_paint rectLeft rectTop (q3x, q3y) _ g3 (px, py) s3 4 h3
  obtain ⟨g4, s4, c4, _⟩ :=
    handleMouseMove_fields rectLeft rectTop (q3x, q3y) _ g3 (px, py) s3
  obtain ⟨pa4, fr4⟩ :=
    handleMouseMove_paint rectLeft rectTop (q4x, q4y) _ g4 (px, py) s4 5 h4
  obtain ⟨g5, s5, c5, _⟩ :=
    handleMouseMove_fields rectLeft rectTop (q4x, q4y) _ g4 (px, py) s4
  have ca1 : (handleMouseDown rectLeft rectTop (px, py) st0).activeColor = "green" :=
    c1.trans hactive
  have ca2 := c2.trans ca1
  have ca3 := c3.trans ca2
  have ca4 := c4.trans ca3
  obtain ⟨_, _, _, fd⟩ := foldMove_fields rectLeft rectTop (px, py)
    [(q1x, q1y), (q2x, q2y), (q3x, q3y), (q4x, q4y)]
    (handleMouseDown rectLeft rectTop (px, py) st0) g1 s1
  have hd5 : (handleMouseMove rectLeft rectTop (q4x, q4y)
      (handleMouseMove rectLeft rectTop (q3x, q3y)
        (handleMouseMove rectLeft rectTop (q2x, q2y)
          (handleMouseMove rectLeft rectTop (q1x, q1y)
            (handleMouseDown rectLeft rectTop (px, py) st0))))).dragged = true :=
    fd.mpr (Or.inr hdragmove)
  obtain ⟨upmap, _, _⟩ := handleMouseUp_dragged rectLeft rectTop (ux, uy) _ hd5
  have hstf : stf = handleMouseUp rectLeft rectTop (ux, uy)
      (handleMouseMove rectLeft rectTop (q4x, q4y)
        (handleMouseMove rectLeft rectTop (q3x, q3y)
          (handleMouseMove rectLeft rectTop (q2x, q2y)
            (handleMouseMove rectLeft rectTop (q1x, q1y)
              (handleMouseDown rectLeft rectTop (px, py) st0))))) := rfl
  refine ⟨?_, ?_, ?_, ?_⟩
  · rw [hstf, upmap, fr4 3 (by decide), fr3 3 (by decide), pa2, ca2]
  · rw [hstf, upmap, fr4 4 (by decide), pa3, ca3]
  · rw [hstf, upmap, pa4, ca4]
  · intro k hk3 hk4 hk5
    rw [hstf, upmap, fr4 k hk5, fr3 k hk4, fr2 k hk3, fr1 k hk3, map1,
      objGet_objSet_ne _ _ _ _ hk3]

end Clock24

namespace Clock24

/-- Evaluate the resolver at a polar point whose degree angle `d` satisfies
`-90 ≤ d ≤ 180` (so the normalized angle is `d + 90`). -/
theorem seg_polar_eval (r d : ℝ) (i : ℤ) (hr0 : 0 < r) (hr : r ≤ 340)
    (hd1 : -90 ≤ d) (hd2 : d ≤ 180)
    (h3 : 15 * (i : ℝ) ≤ d + 90) (h4 : d + 90 < 15 * ((i : ℝ) + 1)) :
    getSegmentIndex (center + r * Real.cos (d * Real.pi / 180))
      (center + r * Real.sin (d * Real.pi / 180)) 0 0 = some i := by
  rw [getSegmentIndex_polar r d hr0 (by rw [radius_eq]; exact hr) (by linarith) hd2,
    Option.some_inj]
  rw [show d + 90 + 360 = d + 450 by ring,
    jsMod_eval _ 360 1 (by norm_num) (by linarith) (by push_cast; linarith)
      (by push_cast; linarith),
    show d + 450 - 360 * ((1:ℤ) : ℝ) = d + 90 by push_cast; ring]
  refine floor_of_bounds _ _ ?_ ?_
  · rw [le_div_iff₀ (by norm_num : (0:ℝ) < 15)]
    linarith
  · rw [div_lt_iff₀ (by norm_num : (0:ℝ) < 15)]
    linarith

/-- Witness for C6 (amended): concrete points at polar angles -45°, -22.5°
and -7.5° (segments 3, 4, 5), with the moves 80 units out along the anchor's
ray, so the threshold is exceeded. -/
theorem drag_paint_green_witness :
    let a3 : ℝ := (-45) * Real.pi / 180
    let a4 : ℝ := (-22.5) * Real.pi / 180
    let a5 : ℝ := (-7.5) * Real.pi / 180
    let stf := run 0 0 ⟨[], "green", false, none, false, none⟩
      [MouseEvent.down (center + 20 * Real.cos a3) (center + 20 * Real.sin a3),
       MouseEvent.move (center + 100 * Real.cos a3) (center + 100 * Real.sin a3),
       MouseEvent.move (center + 100 * Real.cos a3) (center + 100 * Real.sin a3),
       MouseEvent.move (center + 100 * Real.cos a4) (center + 100 * Real.sin a4),
       MouseEvent.move (center + 100 * Real.cos a5) (center + 100 * Real.sin a5),
       MouseEvent.up (center + 20 * Real.cos a3) (center + 20 * Real.sin a3)]
    objGet stf.segmentColors 3 = some "green" ∧
    objGet stf.segmentColors 4 = some "green" ∧
    objGet stf.segmentColors 5 = some "green" ∧
    objGet stf.segmentColors 0 = none := by
  intro a3 a4 a5 stf
  have h := drag_paint_green 0 0 ⟨[], "green", false, none, false, none⟩
    (center + 20 * Real.cos a3) (center + 20 * Real.sin a3)
    (center + 100 * Real.cos a3) (center + 100 * Real.sin a3)
    (center + 100 * Real.cos a3) (center + 100 * Real.sin a3)
    (center + 100 * Real.cos a4) (center + 100 * Real.sin a4)
    (center + 100 * Real.cos a5) (center + 100 * Real.sin a5)
    (center + 20 * Real.cos a3) (center + 20 * Real.sin a3)
    rfl
    (seg_polar_eval 20 (-45) 3 (by norm_num) (by norm_num) (by norm_num) (by norm_num)
      (by norm_num) (by norm_num))
    (seg_polar_eval 100 (-45) 3 (by norm_num) (by norm_num) (by norm_num) (by norm_num)
      (by norm_num) (by norm_num))
    (seg_polar_eval 100 (-45) 3 (by norm_num) (by norm_num) (by norm_num) (by norm_num)
      (by norm_num) (by norm_num))
    (seg_polar_eval 100 (-22.5) 4 (by norm_num) (by norm_num) (by norm_num) (by norm_num)
      (by norm_num) (by norm_num))
    (seg_polar_eval 100 (-7.5) 5 (by norm_num) (by norm_num) (by norm_num) (by norm_num)
      (by norm_num) (by norm_num))
    ?_
  · refine ⟨h.1, h.2.1, h.2.2.1, ?_⟩
    rw [h.2.2.2 0 (by decide) (by decide) (by decide)]
    rfl
  · refine ⟨(center + 100 * Real.cos a3, center + 100 * Real.sin a3), by simp, ?_⟩
    show jsHypot ((center + 100 * Real.cos a3) - (center + 20 * Real.cos a3))
      ((center + 100 * Real.sin a3) - (center + 20 * Real.sin a3)) > 5
    rw [show (center + 100 * Real.cos a3) - (center + 20 * Real.cos a3)
        = 80 * Real.cos a3 by ring,
      show (center + 100 * Real.sin a3) - (center + 20 * Real.sin a3)
        = 80 * Real.sin a3 by ring,
      jsHypot_polar 80 a3 (by norm_num)]
    norm_num

end Clock24

namespace Clock24

/-- Counterexample for C6 as stated: a gesture whose pointer-down resolves
to segment 3 and whose moves resolve to `[3, 3, 4, 5]` (active category
"green"), but whose points all stay within the 5-unit threshold of the
anchor (tiny radii near the center).  The gesture is then classified as a
click, and the pointer-up toggle removes segment 3: the final map does NOT
have segment 3 mapped to "green". -/
theorem subthreshold_gesture_drops_segment3 :
    let a3 : ℝ := (-45) * Real.pi / 180
    let a4 : ℝ := (-22.5) * Real.pi / 180
    let a5 : ℝ := (-7.5) * Real.pi / 180
    let px : ℝ := center + 2 * Real.cos a3
    let py : ℝ := center + 2 * Real.sin a3
    let m1x : ℝ := center + 1 * Real.cos a3
    let m1y : ℝ := center + 1 * Real.sin a3
    let m3x : ℝ := center + 1 * Real.cos a4
    let m3y : ℝ := center + 1 * Real.sin a4
    let m4x : ℝ := center + 1 * Real.cos a5
    let m4y : ℝ := center + 1 * Real.sin a5
    let stf := run 0 0 ⟨[], "green", false, none, false, none⟩
      [MouseEvent.down px py, MouseEvent.move m1x m1y, MouseEvent.move m1x m1y,
       MouseEvent.move m3x m3y, MouseEvent.move m4x m4y, MouseEvent.up px py]
    getSegmentIndex px py 0 0 = some 3 ∧
    getSegmentIndex m1x m1y 0 0 = some 3 ∧
    getSegmentIndex m3x m3y 0 0 = some 4 ∧
    getSegmentIndex m4x m4y 0 0 = some 5 ∧
    objGet stf.segmentColors 3 = none ∧
    objGet stf.segmentColors 4 = some "green" ∧
    objGet stf.segmentColors 5 = some "green" := by
  intro a3 a4 a5 px py m1x m1y m3x m3y m4x m4y stf
  have hp : getSegmentIndex px py 0 0 = some 3 :=
    seg_polar_eval 2 (-45) 3 (by norm_num) (by norm_num) (by norm_num) (by norm_num)
      (by norm_num) (by norm_num)
  have hm1 : getSegmentIndex m1x m1y 0 0 = some 3 :=
    seg_polar_eval 1 (-45) 3 (by norm_num) (by norm_num) (by norm_num) (by norm_num)
      (by norm_num) (by norm_num)
  have hm3 : getSegmentIndex m3x m3y 0 0 = some 4 :=
    seg_polar_eval 1 (-22.5) 4 (by norm_num) (by norm_num) (by norm_num) (by norm_num)
      (by norm_num) (by norm_num)
  have hm4 : getSegmentIndex m4x m4y 0 0 = some 5 :=
    seg_polar_eval 1 (-7.5) 5 (by norm_num) (by norm_num) (by norm_num) (by norm_num)
      (by norm_num) (by norm_num)
  have hb1 : ¬ jsHypot (m1x - px) (m1y - py) > 5 := by
    show ¬ jsHypot ((center + 1 * Real.cos a3) - (center + 2 * Real.cos a3))
      ((center + 1 * Real.sin a3) - (center + 2 * Real.sin a3)) > 5
    rw [show (center + 1 * Real.cos a3) - (center + 2 * Real.cos a3)
        = 1 * Real.cos a3 - 2 * Real.cos a3 by ring,
      show (center + 1 * Real.sin a3) - (center + 2 * Real.sin a3)
        = 1 * Real.sin a3 - 2 * Real.sin a3 by ring]
    have hle := jsHypot_sub_le (1 * Real.cos a3) (1 * Real.sin a3)
      (2 * Real.cos a3) (2 * Real.sin a3)
    rw [jsHypot_polar 1 a3 (by norm_num), jsHypot_polar 2 a3 (by norm_num)] at hle
    exact not_lt.mpr (hle.trans (by norm_num))
  have hb3 : ¬ jsHypot (m3x - px) (m3y - py) > 5 := by
    show ¬ jsHypot ((center + 1 * Real.cos a4) - (center + 2 * Real.cos a3))
      ((center + 1 * Real.sin a4) - (center + 2 * Real.sin a3)) > 5
    rw [show (center + 1 * Real.cos a4) - (center + 2 * Real.cos a3)
        = 1 * Real.cos a4 - 2 * Real.cos a3 by ring,
      show (center + 1 * Real.sin a4) - (center + 2 * Real.sin a3)
        = 1 * Real.sin a4 - 2 * Real.sin a3 by ring]
    have hle := jsHypot_sub_le (1 * Real.cos a4) (1 * Real.sin a4)
      (2 * Real.cos a3) (2 * Real.sin a3)
    rw [jsHypot_polar 1 a4 (by norm_num), jsHypot_polar 2 a3 (by norm_num)] at hle
    exact not_lt.mpr (hle.trans (by norm_num))
  have hb4 : ¬ jsHypot (m4x - px) (m4y - py) > 5 := by
    show ¬ jsHypot ((center + 1 * Real.cos a5) - (center + 2 * Real.cos a3))
      ((center + 1 * Real.sin a5) - (center + 2 * Real.sin a3)) > 5
    rw [show (center + 1 * Real.cos a5) - (center + 2 * Real.cos a3)
        = 1 * Real.cos a5 - 2 * Real.cos a3 by ring,
      show (center + 1 * Real.sin a5) - (center + 2 * Real.sin a3)
        = 1 * Real.sin a5 - 2 * Real.sin a3 by ring]
    have hle := jsHypot_sub_le (1 * Real.cos a5) (1 * Real.sin a5)
      (2 * Real.cos a3) (2 * Real.sin a3)
    rw [jsHypot_polar 1 a5 (by norm_num), jsHypot_polar 2 a3 (by norm_num)] at hle
    exact not_lt.mpr (hle.trans (by norm_num))
  have e1 : handleMouseDown 0 0 (px, py) (⟨[], "green", false, none, false, none⟩ : ClockState)
      = ⟨[(3, "green")], "green", true, some (px, py), false,
          some (stringify [(3, "green")])⟩ := by
    unfold handleMouseDown
    rw [show getSegmentIndex (px, py).1 (px, py).2 0 0 = some 3 from hp]
    rfl
  have e2 : handleMouseMove 0 0 (m1x, m1y)
      (⟨[(3, "green")], "green", true, some (px, py), false,
          some (stringify [(3, "green")])⟩ : ClockState)
      = ⟨[(3, "green")], "green", true, some (px, py), false,
          some (stringify [(3, "green")])⟩ :=
    handleMouseMove_skip 0 0 (m1x, m1y) _ (px, py) rfl hb1 3 hm1 rfl
  have e4 : handleMouseMove 0 0 (m3x, m3y)
      (⟨[(3, "green")], "green", true, some (px, py), false,
          some (stringify [(3, "green")])⟩ : ClockState)
      = ⟨[(3, "green"), (4, "green")], "green", true, some (px, py), false,
          some (stringify [(3, "green"), (4, "green")])⟩ := by
    rw [handleMouseMove_paint_eq 0 0 (m3x, m3y) _ rfl (px, py) rfl hb3 4 hm3 (by decide)]
    rfl
  have e5 : handleMouseMove 0 0 (m4x, m4y)
      (⟨[(3, "green"), (4, "green")], "green", true, some (px, py), false,
          some (stringify [(3, "green"), (4, "green")])⟩ : ClockState)
      = ⟨[(3, "green"), (4, "green"), (5, "green")], "green", true, some (px, py), false,
          some (stringify [(3, "green"), (4, "green"), (5, "green")])⟩ := by
    rw [handleMouseMove_paint_eq 0 0 (m4x, m4y) _ rfl (px, py) rfl hb4 5 hm4 (by decide)]
    rfl
  have e6 : handleMouseUp 0 0 (px, py)
      (⟨[(3, "green"), (4, "green"), (5, "green")], "green", true, some (px, py), false,
          some (stringify [(3, "green"), (4, "green"), (5, "green")])⟩ : ClockState)
      = ⟨[(4, "green"), (5, "green")], "green", false, some (px, py), false,
          some (stringify [(4, "green"), (5, "green")])⟩ := by
    unfold handleMouseUp
    rw [show getSegmentIndex (px, py).1 (px, py).2 0 0 = some 3 from hp]
    rfl
  have hrun : stf = handleMouseUp 0 0 (px, py)
      (handleMouseMove 0 0 (m4x, m4y)
        (handleMouseMove 0 0 (m3x, m3y)
          (handleMouseMove 0 0 (m1x, m1y)
            (handleMouseMove 0 0 (m1x, m1y)
              (handleMouseDown 0 0 (px, py)
                ⟨[], "green", false, none, false, none⟩))))) := rfl
  refine ⟨hp, hm1, hm3, hm4, ?_, ?_, ?_⟩ <;>
    rw [hrun, e1, e2, e2, e4, e5, e6] <;> rfl

end Clock24
